import Mathlib

/-!
# Verification of the sd-image-sorter provenance/filter core

A shallow embedding, in Lean 4, of the normalization, token-extraction,
metadata-detection, filtering and tag-repair logic of the `sd-image-sorter`
backend (`backend/database.py`, `backend/routers/tags.py`,
`backend/metadata_parser.py`), together with theorems settling the frozen
claims about its specification.

Modelling conventions:
* Python strings are modelled as `List Char`.  `str.lower` is modelled on the
  ASCII range (the only range the program's data exercises); `str.strip` and
  `float()`-whitespace use the ASCII whitespace characters.
* SQLite rows are Lean structures; `NULL` is `Option.none`.  A query's result
  set is modelled as a list already arranged in the requested `ORDER BY`
  order, so filtering and `LIMIT`/`OFFSET` are list operations.
* The handful of regular expressions in the source are compiled by hand into
  deterministic scanners.  Each scanner follows Python `re` leftmost,
  backtracking semantics for its particular pattern (each pattern is simple
  enough that the greedy match is deterministic).
* `json.loads` on the stored LoRA column is modelled by a small parser for
  arrays of plain (escape-free) strings; any other input is a parse failure,
  which the source swallows (`except: pass`).  Floating-point literals tested
  by `float(...)` are recognized by `pyFloatValid` below, which follows
  CPython's grammar (ASCII digits, single underscores between digits,
  `inf`/`infinity`/`nan`, optional exponent), case-insensitively.
-/

namespace SDSorter

/-- ASCII lowercasing of one character, the model of Python `str.lower` /
SQLite `LOWER` on the data this program handles. -/
def pyCharLower (c : Char) : Char :=
  if 65 ≤ c.toNat ∧ c.toNat ≤ 90 then Char.ofNat (c.toNat + 32) else c

/-- Model of Python `str.lower()` on a character list. -/
def pyLower (l : List Char) : List Char := l.map pyCharLower

/-- The whitespace characters stripped by Python `str.strip()` (ASCII part). -/
def pyIsWs (c : Char) : Bool :=
  c = ' ' ∨ c = '\t' ∨ c = '\n' ∨ c = '\r' ∨ c = '\x0b' ∨ c = '\x0c'

/-- Model of Python `str.strip()`: drop whitespace from both ends. -/
def pyStrip (l : List Char) : List Char :=
  ((l.dropWhile pyIsWs).reverse.dropWhile pyIsWs).reverse

/-- `normalize_prompt_token` (backend/database.py): lowercase, replace
underscores with spaces, strip. -/
def normalize_prompt_token (token : List Char) : List Char :=
  pyStrip ((pyLower token).map (fun c => if c = '_' then ' ' else c))

/-- Consume a CPython digit run with single underscores allowed between
digits, returning the remainder.  Assumes the first digit has been consumed
already. -/
def digTail : List Char → List Char
  | '_' :: d :: r => if d.isDigit then digTail r else '_' :: d :: r
  | d :: r => if d.isDigit then digTail r else d :: r
  | [] => []

/-- Parse one CPython digit group `D` (digit, then optional `_`-separated
digits); `none` if the input does not start with a digit. -/
def parseD (l : List Char) : Option (List Char) :=
  match l with
  | c :: rest => if c.isDigit then some (digTail rest) else none
  | [] => none

/-- The optional exponent suffix of a CPython float literal, which must
consume the whole remainder. -/
def pyExpPart (l : List Char) : Bool :=
  match l with
  | [] => true
  | 'e' :: r =>
    let r1 := match r with
      | '+' :: r' => r'
      | '-' :: r' => r'
      | _ => r
    match parseD r1 with
    | some r2 => r2 = []
    | none => false
  | _ => false

/-- The mantissa-plus-exponent body of a CPython float literal (input already
lowercased and stripped of sign). -/
def pyFloatBody (l : List Char) : Bool :=
  match parseD l with
  | some r =>
    match r with
    | '.' :: r2 =>
      let r3 := match parseD r2 with
        | some r' => r'
        | none => r2
      pyExpPart r3
    | _ => pyExpPart r
  | none =>
    match l with
    | '.' :: r2 =>
      match parseD r2 with
      | some r3 => pyExpPart r3
      | none => false
    | _ => false

/-- Does CPython `float(s)` succeed?  Models the check
`try: float(parts[1]) except ValueError` in `normalize_lora_name`. -/
def pyFloatValid (l : List Char) : Bool :=
  let t := pyStrip (pyLower l)
  let body := match t with
    | '+' :: r => r
    | '-' :: r => r
    | _ => t
  body = ['i','n','f'] ∨ body = ['i','n','f','i','n','i','t','y'] ∨
    body = ['n','a','n'] ∨ pyFloatBody body

/-- Python `s.rsplit(':', 1)`: `.1` is the part before the last colon, `.2`
the part after it (the whole string and `[]` when there is no colon, a case
the caller guards with `':' in lora_name`). -/
def rsplitColon (l : List Char) : List Char × List Char :=
  let afterRev := l.reverse.takeWhile (fun c => c ≠ ':')
  let restRev := l.reverse.dropWhile (fun c => c ≠ ':')
  match restRev with
  | _ :: pre => (pre.reverse, afterRev.reverse)
  | [] => (l, [])

/-- The model file extensions stripped by `normalize_lora_name`. -/
def loraExtensions : List (List Char) :=
  [".safetensors".data, ".ckpt".data, ".pt".data, ".pth".data, ".bin".data]

/-- First phase of `normalize_lora_name`: if the name contains a colon and
the text after the last colon parses as a Python float, drop that suffix. -/
def stripWeightTag (l : List Char) : List Char :=
  if ':' ∈ l then
    let pr := rsplitColon l
    if pyFloatValid pr.2 then pr.1 else l
  else l

/-- Second phase of `normalize_lora_name`: strip the first (in list order)
known model-file extension which the lowercased name ends with. -/
def stripLoraExt (l : List Char) : List Char :=
  match loraExtensions.find? (fun e => e.isSuffixOf (pyLower l)) with
  | some e => (l.reverse.drop e.length).reverse
  | none => l

/-- `normalize_lora_name` (backend/database.py): strip a trailing `:<float>`
weight, strip one known model-file extension, then lowercase and strip. -/
def normalize_lora_name (lora : List Char) : List Char :=
  pyStrip (pyLower (stripLoraExt (stripWeightTag lora)))

/-! ## Character-level facts about the ASCII lowercasing model -/

theorem char_toNat_inj {a b : Char} (h : a.toNat = b.toNat) : a = b :=
  Char.ext (UInt32.ext h)

theorem charToNatOfNat (n : Nat) (h : n.isValidChar) : (Char.ofNat n).toNat = n := by
  simp only [Char.ofNat, h, dif_pos, Char.ofNatAux, Char.toNat]
  rfl

theorem toNat_pyCharLower (c : Char) :
    (pyCharLower c).toNat = if 65 ≤ c.toNat ∧ c.toNat ≤ 90 then c.toNat + 32 else c.toNat := by
  unfold pyCharLower
  by_cases h : 65 ≤ c.toNat ∧ c.toNat ≤ 90
  · rw [if_pos h, if_pos h]
    exact charToNatOfNat _ (Or.inl (by omega))
  · rw [if_neg h, if_neg h]

theorem pyCharLower_idem (c : Char) : pyCharLower (pyCharLower c) = pyCharLower c := by
  apply char_toNat_inj
  have h1 := toNat_pyCharLower c
  have h2 := toNat_pyCharLower (pyCharLower c)
  by_cases h : 65 ≤ c.toNat ∧ c.toNat ≤ 90
  · rw [if_pos h] at h1
    rw [if_neg (by omega)] at h2
    exact h2
  · rw [if_neg h] at h1
    rw [if_neg (by omega)] at h2
    exact h2

theorem pyLower_idem (l : List Char) : pyLower (pyLower l) = pyLower l := by
  unfold pyLower
  rw [List.map_map]
  exact List.map_congr_left (fun c _ => pyCharLower_idem c)

theorem pyCharLower_special_fixed {s : Char}
    (hup : ¬ (65 ≤ s.toNat ∧ s.toNat ≤ 90)) : pyCharLower s = s := by
  apply char_toNat_inj
  rw [toNat_pyCharLower, if_neg hup]

/-- For a character `s` that is neither an uppercase nor a lowercase ASCII
letter, `pyCharLower c = s` exactly when `c = s`. -/
theorem pyCharLower_eq_special {c s : Char}
    (hlo : ¬ (97 ≤ s.toNat ∧ s.toNat ≤ 122)) (hup : ¬ (65 ≤ s.toNat ∧ s.toNat ≤ 90)) :
    pyCharLower c = s ↔ c = s := by
  constructor
  · intro h
    by_cases hc : 65 ≤ c.toNat ∧ c.toNat ≤ 90
    · exfalso
      have ht := toNat_pyCharLower c
      rw [if_pos hc, h] at ht
      omega
    · have ht := toNat_pyCharLower c
      rw [if_neg hc, h] at ht
      exact char_toNat_inj ht.symm
  · rintro rfl
    exact pyCharLower_special_fixed hup

theorem pyIsWs_false_of_toNat {c : Char}
    (h : ¬ (c.toNat = 32 ∨ c.toNat = 9 ∨ c.toNat = 10 ∨ c.toNat = 13 ∨
            c.toNat = 11 ∨ c.toNat = 12)) : pyIsWs c = false := by
  unfold pyIsWs
  apply decide_eq_false
  rintro (rfl | rfl | rfl | rfl | rfl | rfl) <;> exact h (by decide)

theorem pyIsWs_pyCharLower (c : Char) : pyIsWs (pyCharLower c) = pyIsWs c := by
  by_cases h : 65 ≤ c.toNat ∧ c.toNat ≤ 90
  · have h1 := toNat_pyCharLower c
    rw [if_pos h] at h1
    rw [pyIsWs_false_of_toNat (by omega), pyIsWs_false_of_toNat (by omega)]
  · rw [pyCharLower_special_fixed h]

/-! ## Facts about stripping -/

theorem dropWhile_idem (p : α → Bool) (l : List α) :
    (l.dropWhile p).dropWhile p = l.dropWhile p := by
  induction l with
  | nil => rfl
  | cons a t ih =>
    rw [List.dropWhile_cons]
    by_cases h : p a
    · rw [if_pos h, ih]
    · rw [if_neg h, List.dropWhile_cons, if_neg h]

theorem dropWhile_eq_self_of_head (p : α → Bool) (l : List α)
    (h : ∀ (a : α) (t : List α), l = a :: t → p a = false) :
    l.dropWhile p = l := by
  cases l with
  | nil => rfl
  | cons a t => rw [List.dropWhile_cons, h a t rfl]; simp

theorem pyStrip_idem (l : List Char) : pyStrip (pyStrip l) = pyStrip l := by
  unfold pyStrip
  set a := l.dropWhile pyIsWs with ha
  set b := a.reverse.dropWhile pyIsWs with hb
  have hbra : b.reverse.dropWhile pyIsWs = b.reverse := by
    apply dropWhile_eq_self_of_head
    intro c t hct
    have hsuffix : b <:+ a.reverse := hb ▸ List.dropWhile_suffix pyIsWs
    obtain ⟨r, hr⟩ := hsuffix
    have hane : a = c :: (t ++ r.reverse) := by
      have := congrArg List.reverse hr
      simpa [hct] using this.symm
    have hw : l.dropWhile pyIsWs ≠ [] := by rw [← ha, hane]; simp
    have hhd := List.head_dropWhile_not pyIsWs l hw
    have h2 : l.dropWhile pyIsWs = c :: (t ++ r.reverse) := ha.symm.trans hane
    have : (l.dropWhile pyIsWs).head hw = c := by simp [h2]
    rwa [this] at hhd
  rw [hbra, List.reverse_reverse, dropWhile_idem]

end SDSorter
namespace SDSorter

theorem pyStrip_subset (l : List Char) : ∀ x ∈ pyStrip l, x ∈ l := by
  intro x hx
  unfold pyStrip at hx
  rw [List.mem_reverse] at hx
  have h1 := (List.dropWhile_sublist (l := (l.dropWhile pyIsWs).reverse) pyIsWs).subset hx
  rw [List.mem_reverse] at h1
  exact (List.dropWhile_sublist pyIsWs).subset h1

/-- Every character of a normalized prompt token is `pyCharLower`-fixed and
is not an underscore. -/
theorem normalize_prompt_token_chars (x : List Char) :
    ∀ d ∈ normalize_prompt_token x, pyCharLower d = d ∧ d ≠ '_' := by
  intro d hd
  unfold normalize_prompt_token at hd
  have hmem := pyStrip_subset _ d hd
  rw [List.mem_map] at hmem
  obtain ⟨e, he, hde⟩ := hmem
  unfold pyLower at he
  rw [List.mem_map] at he
  obtain ⟨c, _, hce⟩ := he
  subst hce
  by_cases hu : pyCharLower c = '_'
  · rw [hu] at hde
    simp only [if_pos rfl] at hde
    subst hde
    exact ⟨pyCharLower_special_fixed (by decide), by decide⟩
  · rw [if_neg hu] at hde
    subst hde
    exact ⟨pyCharLower_idem c, hu⟩

theorem map_id_of_fixed {f : α → α} {l : List α} (h : ∀ x ∈ l, f x = x) :
    l.map f = l := by
  induction l with
  | nil => rfl
  | cons a t ih =>
    simp only [List.map_cons, h a (by simp)]
    rw [ih (fun x hx => h x (by simp [hx]))]

/-- Idempotence of `normalize_prompt_token`. -/
theorem normalize_prompt_token_idem (x : List Char) :
    normalize_prompt_token (normalize_prompt_token x) = normalize_prompt_token x := by
  have hchars := normalize_prompt_token_chars x
  set y := normalize_prompt_token x with hy
  have h1 : pyLower y = y := map_id_of_fixed (fun d hd => (hchars d hd).1)
  have h2 : y.map (fun c => if c = '_' then ' ' else c) = y :=
    map_id_of_fixed (fun d hd => if_neg ((hchars d hd).2))
  rw [normalize_prompt_token, h1, h2, hy, normalize_prompt_token]
  exact pyStrip_idem _

/-- Case-insensitivity of `normalize_prompt_token`. -/
theorem normalize_prompt_token_lower (x : List Char) :
    normalize_prompt_token (pyLower x) = normalize_prompt_token x := by
  unfold normalize_prompt_token
  rw [pyLower_idem]

theorem pyLower_reverse (l : List Char) : pyLower l.reverse = (pyLower l).reverse :=
  List.map_reverse pyCharLower l

theorem ne_colon_comp_lower :
    ((fun c : Char => decide (c ≠ ':')) ∘ pyCharLower) = fun c : Char => decide (c ≠ ':') := by
  funext c
  simp only [Function.comp_apply]
  rw [decide_eq_decide]
  exact not_congr (pyCharLower_eq_special (by decide) (by decide))

theorem colon_mem_lower (l : List Char) : ':' ∈ pyLower l ↔ ':' ∈ l := by
  unfold pyLower
  rw [List.mem_map]
  constructor
  · rintro ⟨a, ha, hac⟩
    rwa [(pyCharLower_eq_special (by decide) (by decide)).mp hac] at ha
  · intro h
    exact ⟨':', h, pyCharLower_special_fixed (by decide)⟩

theorem rsplitColon_lower (l : List Char) :
    rsplitColon (pyLower l) = (pyLower (rsplitColon l).1, pyLower (rsplitColon l).2) := by
  unfold rsplitColon
  rw [← pyLower_reverse]
  unfold pyLower
  rw [List.dropWhile_map, List.takeWhile_map, ne_colon_comp_lower]
  cases hd : l.reverse.dropWhile (fun c => decide (c ≠ ':')) with
  | nil => simp [hd]
  | cons a pre => simp [hd, List.map_reverse]

end SDSorter
namespace SDSorter

theorem pyFloatValid_lower (l : List Char) : pyFloatValid (pyLower l) = pyFloatValid l := by
  unfold pyFloatValid
  rw [pyLower_idem]

theorem stripWeightTag_lower (l : List Char) :
    stripWeightTag (pyLower l) = pyLower (stripWeightTag l) := by
  unfold stripWeightTag
  by_cases hc : ':' ∈ l
  · rw [if_pos hc, if_pos ((colon_mem_lower l).mpr hc)]
    simp only [rsplitColon_lower, pyFloatValid_lower]
    by_cases hf : pyFloatValid (rsplitColon l).2
    · rw [if_pos hf, if_pos hf]
    · rw [if_neg hf, if_neg hf]
  · rw [if_neg hc, if_neg (fun h => hc ((colon_mem_lower l).mp h))]

theorem stripLoraExt_lower (l : List Char) :
    stripLoraExt (pyLower l) = pyLower (stripLoraExt l) := by
  unfold stripLoraExt
  simp only [pyLower_idem]
  cases hf : loraExtensions.find? (fun e => e.isSuffixOf (pyLower l)) with
  | none => rfl
  | some e => simp [pyLower, List.map_reverse, List.map_drop]

theorem normalize_lora_name_lower (l : List Char) :
    normalize_lora_name (pyLower l) = normalize_lora_name l := by
  unfold normalize_lora_name
  rw [stripWeightTag_lower, stripLoraExt_lower, pyLower_idem]

end SDSorter
namespace SDSorter

/-- Claim C5, counterexample: `normalize_lora_name` is NOT idempotent: on
`"a:1:2"` one application strips only the trailing `:2` weight, and a second
application strips the newly exposed `:1` as well. -/
theorem claim_C5_counterexample :
    normalize_lora_name ("a:1:2".data) = "a:1".data ∧
    normalize_lora_name (normalize_lora_name ("a:1:2".data)) = "a".data ∧
    normalize_lora_name (normalize_lora_name ("a:1:2".data)) ≠
      normalize_lora_name ("a:1:2".data) := by
  refine ⟨by decide, by decide, by decide⟩

/-- Claim C5, amended: `normalize_prompt_token` is idempotent and
case-insensitive; `normalize_lora_name` is case-insensitive and maps both
`"Lora_X:0.8"` and `"lora_x.safetensors"` to `"lora_x"` (but is not
idempotent, see the counterexample). -/
theorem claim_C5_amended :
    (∀ x : List Char,
      normalize_prompt_token (normalize_prompt_token x) = normalize_prompt_token x) ∧
    (∀ x : List Char, normalize_prompt_token (pyLower x) = normalize_prompt_token x) ∧
    (∀ x : List Char, normalize_lora_name (pyLower x) = normalize_lora_name x) ∧
    normalize_lora_name ("Lora_X:0.8".data) = "lora_x".data ∧
    normalize_lora_name ("lora_x.safetensors".data) = "lora_x".data :=
  ⟨normalize_prompt_token_idem, normalize_prompt_token_lower,
   normalize_lora_name_lower, by decide, by decide⟩

/-- Witness for C5's amended theorem at concrete inputs. -/
theorem claim_C5_amended_witness :
    normalize_prompt_token (normalize_prompt_token ("  Best_Quality ".data)) =
      normalize_prompt_token ("  Best_Quality ".data) ∧
    normalize_lora_name (pyLower ("My_LORA.SafeTensors".data)) =
      normalize_lora_name ("My_LORA.SafeTensors".data) :=
  ⟨claim_C5_amended.1 _, claim_C5_amended.2.2.1 _⟩

end SDSorter
namespace SDSorter

/-! ## Hand-compiled scanners for the source's regular expressions -/

/-- Generic model of `re.sub(pattern, '', text)`: scan left to right; where
the matcher succeeds, drop the matched span and continue after it; otherwise
emit one character and retry at the next position.  `fuel` bounds recursion;
callers pass `length + 1`, which suffices because every step consumes at
least one character. -/
def scanSub (m : List Char → Option (List Char)) : Nat → List Char → List Char
  | 0, l => l
  | _ + 1, [] => []
  | fuel + 1, c :: rest =>
    match m (c :: rest) with
    | some rem => scanSub m fuel rem
    | none => c :: scanSub m fuel rest

/-- Generic model of `re.findall`: like `scanSub` but collect the captures. -/
def scanFind (m : List Char → Option (List Char × List Char)) :
    Nat → List Char → List (List Char)
  | 0, _ => []
  | _ + 1, [] => []
  | fuel + 1, c :: rest =>
    match m (c :: rest) with
    | some (cap, rem) => cap :: scanFind m fuel rem
    | none => scanFind m fuel rest

/-- One match of `<[^>]+>[^<]*</[^>]+>` anchored at the head of the input
(the pattern is backtracking-free: each subpattern's greedy extent is
forced), returning the remainder after the match. -/
def matchTagPair : List Char → Option (List Char)
  | '<' :: r1 =>
    let a := r1.takeWhile (fun c => c ≠ '>')
    let r2 := r1.dropWhile (fun c => c ≠ '>')
    if a = [] then none else
    match r2 with
    | '>' :: r3 =>
      match r3.dropWhile (fun c => c ≠ '<') with
      | '<' :: '/' :: r5 =>
        let b := r5.takeWhile (fun c => c ≠ '>')
        let r6 := r5.dropWhile (fun c => c ≠ '>')
        if b = [] then none else
        match r6 with
        | '>' :: r7 => some r7
        | _ => none
      | _ => none
    | _ => none
  | _ => none

/-- One match of `<lora:[^>]+>` (case-sensitive, as in the `re.sub` calls)
anchored at the head of the input. -/
def matchLoraTagCS (l : List Char) : Option (List Char) :=
  if ("<lora:".data).isPrefixOf l then
    let rest := l.drop 6
    let a := rest.takeWhile (fun c => c ≠ '>')
    let r2 := rest.dropWhile (fun c => c ≠ '>')
    if a = [] then none else
    match r2 with
    | '>' :: r3 => some r3
    | _ => none
  else none

/-- One match of `<[^>]+>` anchored at the head of the input. -/
def matchAnyTag : List Char → Option (List Char)
  | '<' :: r1 =>
    let a := r1.takeWhile (fun c => c ≠ '>')
    let r2 := r1.dropWhile (fun c => c ≠ '>')
    if a = [] then none else
    match r2 with
    | '>' :: r3 => some r3
    | _ => none
  | _ => none

/-- Python `str.split(sep)` (keeping empty segments). -/
def pySplitChar (sep : Char) : List Char → List (List Char)
  | [] => [[]]
  | c :: rest =>
    match pySplitChar sep rest with
    | [] => [[c]]
    | h :: t => if c = sep then [] :: h :: t else (c :: h) :: t

/-- Model of `re.sub(r'^\(+|\)+$', '', token)`: remove the run of leading
`(` and the run of trailing `)` (where, per Python `$` semantics, a run of
`)` just before a single final newline also counts as trailing). -/
def stripParens (l : List Char) : List Char :=
  let l1 := l.dropWhile (fun c => c = '(')
  match l1.reverse with
  | ')' :: _ => (l1.reverse.dropWhile (fun c => c = ')')).reverse
  | '\n' :: r2 => ('\n' :: r2.dropWhile (fun c => c = ')')).reverse
  | _ => l1

/-- Does `\d+\.?\d*\)?` consume the text exactly (the tail of the weight
pattern after its colon)? -/
def gramWeight (t : List Char) : Bool :=
  let d := t.takeWhile (fun c => c.isDigit)
  let r := t.dropWhile (fun c => c.isDigit)
  if d = [] then false else
  let r1 := match r with
    | '.' :: rr => rr
    | _ => r
  let r2 := r1.dropWhile (fun c => c.isDigit)
  r2 = [] ∨ r2 = [')']

/-- After a candidate colon, decide whether `:\d+\.?\d*\)?$` matches there,
and if so return what of the input survives the substitution (`['\n']` when
the `$` was the position before a final newline). -/
def weightTailCase (rest : List Char) : Option (List Char) :=
  if gramWeight rest then some []
  else if rest.getLast? = some '\n' ∧ gramWeight rest.dropLast then some ['\n']
  else none

/-- Model of `re.sub(r':\d+\.?\d*\)?$', '', token)`: find the leftmost colon
whose tail matches the anchored pattern and cut there. -/
def stripWeightTok : List Char → List Char
  | [] => []
  | c :: rest =>
    if c = ':' then
      match weightTailCase rest with
      | some suffix => suffix
      | none => c :: stripWeightTok rest
    else c :: stripWeightTok rest

/-- `extract_prompt_tokens` (backend/database.py): strip XML-like tag pairs,
`<lora:...>` tags and remaining tags; split on commas; strip each segment,
remove leading/trailing parentheses and a trailing `:<number>` weight;
keep cleaned tokens longer than one character, normalized. -/
def extract_prompt_tokens (prompt : List Char) : Finset (List Char) :=
  if prompt = [] then ∅ else
  let c1 := scanSub matchTagPair (prompt.length + 1) prompt
  let c2 := scanSub matchLoraTagCS (c1.length + 1) c1
  let c3 := scanSub matchAnyTag (c2.length + 1) c2
  (pySplitChar ',' c3).foldl (fun acc seg =>
    let token := pyStrip seg
    if token = [] then acc
    else
      let ct := pyStrip (stripWeightTok (stripParens token))
      if ct ≠ [] ∧ 1 < ct.length then
        let n := normalize_prompt_token ct
        if n ≠ [] ∧ 1 < n.length then insert n acc else acc
      else acc) ∅

end SDSorter

namespace SDSorter

/-- One match of `<lora:([^:>]+)(?::[^>]+)?>` with `re.IGNORECASE`
(backend/database.py `extract_lora_names`), anchored at the head; returns
the capture (in original case) and the remainder. -/
def matchLoraCapA (l : List Char) : Option (List Char × List Char) :=
  if ("<lora:".data).isPrefixOf (pyLower l) then
    let rest := l.drop 6
    let cap := rest.takeWhile (fun c => c ≠ ':' ∧ c ≠ '>')
    let r2 := rest.dropWhile (fun c => c ≠ ':' ∧ c ≠ '>')
    if cap = [] then none else
    match r2 with
    | '>' :: r3 => some (cap, r3)
    | ':' :: r3 =>
      let b := r3.takeWhile (fun c => c ≠ '>')
      let r4 := r3.dropWhile (fun c => c ≠ '>')
      if b = [] then none else
      match r4 with
      | '>' :: r5 => some (cap, r5)
      | _ => none
    | _ => none
  else none

/-- One match of `<lora:([^:>]+)(?:[^>]*)?>` with `re.IGNORECASE`
(backend/routers/tags.py `get_loras_library`), anchored at the head. -/
def matchLoraCapB (l : List Char) : Option (List Char × List Char) :=
  if ("<lora:".data).isPrefixOf (pyLower l) then
    let rest := l.drop 6
    let cap := rest.takeWhile (fun c => c ≠ ':' ∧ c ≠ '>')
    let r2 := rest.dropWhile (fun c => c ≠ ':' ∧ c ≠ '>')
    if cap = [] then none else
    match r2.dropWhile (fun c => c ≠ '>') with
    | '>' :: r5 => some (cap, r5)
    | _ => none
  else none

/-- The whitespace skipped between JSON tokens. -/
def jsonWs (c : Char) : Bool := c = ' ' ∨ c = '\t' ∨ c = '\n' ∨ c = '\r'

/-- Body of a JSON string after its opening quote; returns the decoded
characters and the remainder after the closing quote.  `\uXXXX` escapes are
not modelled (they make the whole parse fail, see `pyJsonStrList`). -/
def jsonStrBody : List Char → Option (List Char × List Char)
  | [] => none
  | '"' :: r => some ([], r)
  | '\\' :: c :: r =>
    let d? : Option Char := match c with
      | '"' => some '"'
      | '\\' => some '\\'
      | '/' => some '/'
      | 'n' => some '\n'
      | 't' => some '\t'
      | 'r' => some '\r'
      | 'b' => some '\x08'
      | 'f' => some '\x0c'
      | _ => none
    match d? with
    | some d =>
      match jsonStrBody r with
      | some (s, rem) => some (d :: s, rem)
      | none => none
    | none => none
  | c :: r =>
    match jsonStrBody r with
    | some (s, rem) => some (c :: s, rem)
    | none => none

/-- Elements of a JSON array of strings, entered after `[` (or a `,`). -/
def jsonElems : Nat → List Char → Option (List (List Char))
  | 0, _ => none
  | fuel + 1, input =>
    match input.dropWhile jsonWs with
    | '"' :: r =>
      match jsonStrBody r with
      | some (s, rem) =>
        match rem.dropWhile jsonWs with
        | ',' :: r2 => (jsonElems fuel r2).map (fun xs => s :: xs)
        | ']' :: r2 => if r2.dropWhile jsonWs = [] then some [s] else none
        | _ => none
      | none => none
    | _ => none

/-- Model of `json.loads` restricted to what the `loras` column holds: an
array of plain strings.  `none` stands for any `json.loads` outcome the
caller's `except` swallows (parse errors, or shapes outside the model). -/
def pyJsonStrList (l : List Char) : Option (List (List Char)) :=
  match l.dropWhile jsonWs with
  | '[' :: r =>
    match r.dropWhile jsonWs with
    | ']' :: r2 => if r2.dropWhile jsonWs = [] then some [] else none
    | _ => jsonElems (r.length + 1) r
  | _ => none

/-- `extract_lora_names` (backend/database.py): normalized LoRA names from
the stored JSON array and from `<lora:name:weight>` tags in the prompt.
`none` arguments model SQL `NULL` (Python `None`), which the source's
truthiness checks skip. -/
def extract_lora_names (lorasJson : Option (List Char)) (prompt : Option (List Char)) :
    Finset (List Char) :=
  let s1 : Finset (List Char) :=
    match lorasJson with
    | some lj =>
      if lj = [] then ∅ else
      match pyJsonStrList lj with
      | some xs => xs.foldl (fun acc nm =>
          if nm ≠ [] ∧ 2 < nm.length then
            let n := normalize_lora_name nm
            if n ≠ [] ∧ 2 < n.length then insert n acc else acc
          else acc) ∅
      | none => ∅
    | none => ∅
  match prompt with
  | some p =>
    if p = [] then s1 else
    (scanFind matchLoraCapA (p.length + 1) p).foldl (fun acc nm =>
      if nm ≠ [] ∧ 2 < nm.length then
        let n := normalize_lora_name nm
        if n ≠ [] ∧ 2 < n.length then insert n acc else acc
      else acc) s1
  | none => s1

end SDSorter
namespace SDSorter

/-- The copy of `normalize_prompt_token` duplicated in
backend/routers/tags.py (same body, byte for byte). -/
def libNormalizePromptToken (token : List Char) : List Char :=
  pyStrip ((pyLower token).map (fun c => if c = '_' then ' ' else c))

/-- The copy of `normalize_lora_name` duplicated in backend/routers/tags.py
(same body, byte for byte). -/
def libNormalizeLoraName (lora : List Char) : List Char :=
  pyStrip (pyLower (stripLoraExt (stripWeightTag lora)))

/-- The per-image normalized token set computed by `get_prompts_library`
(backend/routers/tags.py): same tag stripping and comma split, with the
empty segments filtered out up front by the list comprehension. -/
def libraryPromptTokens (prompt : List Char) : Finset (List Char) :=
  let c1 := scanSub matchTagPair (prompt.length + 1) prompt
  let c2 := scanSub matchLoraTagCS (c1.length + 1) c1
  let c3 := scanSub matchAnyTag (c2.length + 1) c2
  (((pySplitChar ',' c3).map pyStrip).filter (fun t => t ≠ [])).foldl (fun acc token =>
    let ct := pyStrip (stripWeightTok (stripParens token))
    if ct ≠ [] ∧ 1 < ct.length then
      let n := libNormalizePromptToken ct
      if n ≠ [] ∧ 1 < n.length then insert n acc else acc
    else acc) ∅

/-- The per-image normalized LoRA set computed by `get_loras_library`
(backend/routers/tags.py): JSON-array part identical to the filter engine's,
prompt part via the regex `<lora:([^:>]+)(?:[^>]*)?>` (note: not the filter
engine's `<lora:([^:>]+)(?::[^>]+)?>`). -/
def libraryLoraNames (lorasCol : Option (List Char)) (promptCol : Option (List Char)) :
    Finset (List Char) :=
  let lorasStr := lorasCol.getD []
  let promptStr := promptCol.getD []
  let s1 : Finset (List Char) :=
    if lorasStr = [] then ∅ else
    match pyJsonStrList lorasStr with
    | some xs => xs.foldl (fun acc nm =>
        if nm ≠ [] ∧ 2 < nm.length then
          let n := libNormalizeLoraName nm
          if n ≠ [] ∧ 2 < n.length then insert n acc else acc
        else acc) ∅
    | none => ∅
  if promptStr = [] then s1 else
  (scanFind matchLoraCapB (promptStr.length + 1) promptStr).foldl (fun acc nm =>
    if nm ≠ [] ∧ 2 < nm.length then
      let n := libNormalizeLoraName nm
      if n ≠ [] ∧ 2 < n.length then insert n acc else acc
    else acc) s1

end SDSorter

namespace SDSorter

/-- The two copies of the token normalizer are the same function. -/
theorem libNormalizePromptToken_eq : libNormalizePromptToken = normalize_prompt_token := rfl

/-- The two copies of the LoRA normalizer are the same function. -/
theorem libNormalizeLoraName_eq : libNormalizeLoraName = normalize_lora_name := rfl

/-- Skipping empty segments inside the fold (filter engine) and filtering
them out up front (library counting) build the same token set. -/
theorem fold_tokens_eq (segs : List (List Char)) (acc : Finset (List Char)) :
    (((segs.map pyStrip).filter (fun t => t ≠ [])).foldl (fun acc token =>
      let ct := pyStrip (stripWeightTok (stripParens token))
      if ct ≠ [] ∧ 1 < ct.length then
        let n := libNormalizePromptToken ct
        if n ≠ [] ∧ 1 < n.length then insert n acc else acc
      else acc) acc) =
    segs.foldl (fun acc seg =>
      let token := pyStrip seg
      if token = [] then acc
      else
        let ct := pyStrip (stripWeightTok (stripParens token))
        if ct ≠ [] ∧ 1 < ct.length then
          let n := normalize_prompt_token ct
          if n ≠ [] ∧ 1 < n.length then insert n acc else acc
        else acc) acc := by
  induction segs generalizing acc with
  | nil => rfl
  | cons s rest ih =>
    rw [List.map_cons, List.filter_cons, List.foldl_cons]
    by_cases h : pyStrip s = []
    · have hd : decide (pyStrip s ≠ []) = false := by simp [h]
      rw [hd, if_neg (by simp), if_pos h]
      exact ih acc
    · have hd : decide (pyStrip s ≠ []) = true := by simp [h]
      rw [hd, if_pos rfl, if_neg h, List.foldl_cons]
      simp only [libNormalizePromptToken_eq]
      exact ih _

end SDSorter
namespace SDSorter

/-- The library's per-image prompt-token set coincides with the filter
engine's `extract_prompt_tokens` on every prompt. -/
theorem libraryPromptTokens_eq_extract (p : List Char) :
    libraryPromptTokens p = extract_prompt_tokens p := by
  by_cases hp : p = []
  · subst hp; rfl
  · unfold libraryPromptTokens extract_prompt_tokens
    rw [if_neg hp]
    exact fold_tokens_eq _ ∅

/-- The library's per-image LoRA set coincides with the filter engine's
`extract_lora_names` whenever the prompt contributes nothing (the stored
JSON list is handled by identical code on both sides). -/
theorem libraryLoraNames_eq_extract_of_no_prompt (lorasCol : Option (List Char)) :
    libraryLoraNames lorasCol none = extract_lora_names lorasCol none := by
  cases lorasCol with
  | none => rfl
  | some lj =>
    unfold libraryLoraNames extract_lora_names
    simp only [libNormalizeLoraName_eq, Option.getD_some, Option.getD_none]
    by_cases h : lj = []
    · simp [h]
    · simp [h]

/-- Claim C3, counterexample: on the record with `loras = NULL` and prompt
`"<lora:abc:>"`, the library endpoint extracts `{"abc"}` while the filter
engine's `extract_lora_names` extracts nothing — its regex requires a
non-empty segment between the second colon and `>`. -/
theorem claim_C3_counterexample :
    libraryLoraNames none (some ("<lora:abc:>".data)) = {"abc".data} ∧
    extract_lora_names none (some ("<lora:abc:>".data)) = ∅ ∧
    libraryLoraNames none (some ("<lora:abc:>".data)) ≠
      extract_lora_names none (some ("<lora:abc:>".data)) :=
  ⟨by decide, by decide, by decide⟩

/-- Claim C3, amended: the prompt-token extraction logics are extensionally
identical, and the LoRA extraction logics agree on the stored-list part;
but the two prompt-side LoRA regexes differ (see the counterexample). -/
theorem claim_C3_amended :
    (∀ p : List Char, libraryPromptTokens p = extract_prompt_tokens p) ∧
    (∀ lorasCol : Option (List Char),
      libraryLoraNames lorasCol none = extract_lora_names lorasCol none) :=
  ⟨libraryPromptTokens_eq_extract, libraryLoraNames_eq_extract_of_no_prompt⟩

/-- Witness for C3's amended theorem at concrete inputs. -/
theorem claim_C3_amended_witness :
    libraryPromptTokens ("(cat:1.2), tree".data) =
      extract_prompt_tokens ("(cat:1.2), tree".data) ∧
    libraryLoraNames (some ("[\"MyLora:0.8\"]".data)) none =
      extract_lora_names (some ("[\"MyLora:0.8\"]".data)) none :=
  ⟨claim_C3_amended.1 _, claim_C3_amended.2 _⟩

end SDSorter
namespace SDSorter

/-! ## The relational model of `get_images` -/

/-- One row of the `images` table joined with its `tags` rows.  `Option` is
SQL `NULL`; `tags` carries `(tag, confidence)` pairs. -/
structure ImageRec where
  id : Nat := 0
  path : List Char := []
  filename : List Char := []
  generator : List Char := []
  prompt : Option (List Char) := none
  negative_prompt : Option (List Char) := none
  metadata_json : Option (List Char) := none
  width : Option Int := none
  height : Option Int := none
  file_size : Option Int := none
  checkpoint : Option (List Char) := none
  loras : Option (List Char) := none
  created_at : Option Nat := none
  indexed_at : Option Nat := none
  tagged_at : Option Nat := none
  tags : List (List Char × ℚ) := []
deriving DecidableEq

/-- The arguments of `get_images`, with the source's defaults.  Absent
optional list/string arguments are `[]` (Python `None` and `[]`/`""` are
equally falsy in every guard the function uses). -/
structure GetImagesQuery where
  generators : List (List Char) := []
  tags : List (List Char) := []
  ratings : List (List Char) := []
  checkpoints : List (List Char) := []
  loras : List (List Char) := []
  search_query : List Char := []
  limit : Nat := 100
  offset : Nat := 0
  min_width : Option Int := none
  max_width : Option Int := none
  min_height : Option Int := none
  max_height : Option Int := none
  prompt_terms : List (List Char) := []
  aspect_ratio : Option (List Char) := none

/-- Is `needle` a contiguous segment of `hay`? -/
def containsSeg (hay needle : List Char) : Bool :=
  if needle.isPrefixOf hay then true
  else match hay with
    | [] => false
    | _ :: t => containsSeg t needle

/-- SQLite `X LIKE '%pat%'` (ASCII case-insensitive substring).  Caveat:
`pat` is modelled literally, but an interpolated tag/LoRA/search string may
contain `_`, a SQLite single-character wildcard, under which LIKE matches a
superset of these rows; no theorem in this file depends on the difference
(the exact-token claims rest on the refinement pass, and the query-rewrite
claims keep identical LIKE conjuncts on both sides). -/
def sqlLike (hay pat : List Char) : Bool := containsSeg (pyLower hay) (pyLower pat)

/-- SQL `REPLACE(LOWER(prompt), '_', ' ')`. -/
def promptNorm (p : List Char) : List Char :=
  (pyLower p).map (fun c => if c = '_' then ' ' else c)

/-- The four rating tags. -/
def allRatings : Finset (List Char) :=
  {"general".data, "sensitive".data, "questionable".data, "explicit".data}

/-- `ABS(CAST(width AS FLOAT) / height - 1.0) < 0.1`.  Division is modelled
in `ℚ`; for the widths/heights in the claims the IEEE-double and rational
comparisons agree (none is near the decision boundary).  Division by zero
and `NULL` operands make the SQL comparison `NULL`, i.e. false. -/
def aspectSquare (r : ImageRec) : Bool :=
  match r.width, r.height with
  | some w, some h => if h = 0 then false else |(w : ℚ) / (h : ℚ) - 1| < 1/10
  | _, _ => false

/-- `CAST(width AS FLOAT) / height > 1.1`. -/
def aspectLandscape (r : ImageRec) : Bool :=
  match r.width, r.height with
  | some w, some h => if h = 0 then false else (w : ℚ) / (h : ℚ) > 11/10
  | _, _ => false

/-- `CAST(width AS FLOAT) / height < 0.9`. -/
def aspectPortrait (r : ImageRec) : Bool :=
  match r.width, r.height with
  | some w, some h => if h = 0 then false else (w : ℚ) / (h : ℚ) < 9/10
  | _, _ => false

/-- The `WHERE` clause built by `get_images` (phase 1, coarse), one source
condition per conjunct, in source order.  Guards of the form `if xs:` show
up as `xs = [] ∨ ...`; a dimension bound of `0` is falsy in Python and adds
no condition. -/
def rowCond (q : GetImagesQuery) (r : ImageRec) : Bool :=
  q.tags.all (fun t => r.tags.any (fun tg => sqlLike tg.1 t)) &&
  (q.generators = [] || r.generator ∈ q.generators) &&
  (q.ratings = [] || q.ratings.toFinset = allRatings ||
    (r.tags.any (fun tg => tg.1 ∈ q.ratings) || r.tagged_at = none)) &&
  (q.checkpoints = [] || (match r.checkpoint with
    | some c => c ∈ q.checkpoints
    | none => false)) &&
  (q.loras = [] || q.loras.any (fun lora =>
    let n := normalize_lora_name lora
    (match r.loras with
     | some s => sqlLike s n
     | none => false) ||
    (match r.metadata_json with
     | some s => sqlLike s n
     | none => false) ||
    (match r.prompt with
     | some s => sqlLike s n
     | none => false))) &&
  (q.search_query = [] ||
    ((match r.prompt with
      | some p => sqlLike (promptNorm p) (normalize_prompt_token q.search_query)
      | none => false) ||
     sqlLike r.filename q.search_query)) &&
  (q.prompt_terms.all (fun t => match r.prompt with
    | some p => sqlLike (promptNorm p) (normalize_prompt_token t)
    | none => false)) &&
  (match q.min_width with
   | some v => v = 0 || (match r.width with
     | some w => v ≤ w
     | none => false)
   | none => true) &&
  (match q.max_width with
   | some v => v = 0 || (match r.width with
     | some w => w ≤ v
     | none => false)
   | none => true) &&
  (match q.min_height with
   | some v => v = 0 || (match r.height with
     | some h => v ≤ h
     | none => false)
   | none => true) &&
  (match q.max_height with
   | some v => v = 0 || (match r.height with
     | some h => h ≤ v
     | none => false)
   | none => true) &&
  (match q.aspect_ratio with
   | some a =>
     if a = "square".data then aspectSquare r
     else if a = "landscape".data then aspectLandscape r
     else if a = "portrait".data then aspectPortrait r
     else true
   | none => true)

/-- `get_images` (backend/database.py): the coarse, ordered result set is
`db.filter (rowCond q)` (the input list is taken in `ORDER BY` order); with
prompt-term or LoRA criteria the coarse query carries no `LIMIT`/`OFFSET`
and an exact refinement pass recomputes token/LoRA sets before slicing,
otherwise `LIMIT`/`OFFSET` apply directly. -/
def getImages (db : List ImageRec) (q : GetImagesQuery) : List ImageRec :=
  let rows := db.filter (rowCond q)
  let needsPost := !q.prompt_terms.isEmpty || !q.loras.isEmpty
  if needsPost then
    let nts := q.prompt_terms.map normalize_prompt_token
    let nls := q.loras.map normalize_lora_name
    let filtered := rows.filter (fun img =>
      (nts.isEmpty || nts.all (fun t => t ∈ extract_prompt_tokens (img.prompt.getD []))) &&
      (nls.isEmpty || nls.any (fun n => n ∈ extract_lora_names img.loras img.prompt)))
    if q.limit ≠ 0 then (filtered.drop q.offset).take q.limit
    else filtered.drop q.offset
  else
    (rows.drop q.offset).take q.limit

end SDSorter

namespace SDSorter

/-- Claim C8, counterexample: a 100×112 image does NOT fall in an
unclassified band — `100/112 < 0.9`, so the filter classifies it as
portrait. -/
theorem claim_C8_counterexample :
    aspectPortrait { width := some 100, height := some 112 } = true := by
  simp only [aspectPortrait]
  norm_num

/-- Claim C8, amended: 100×100 is square (and neither landscape nor
portrait), 111×100 is landscape (and not square), and 100×112 is portrait
(not square, not landscape) — the "unclassified band" does not contain
100×112. -/
theorem claim_C8_amended :
    aspectSquare { width := some 100, height := some 100 } = true ∧
    aspectLandscape { width := some 100, height := some 100 } = false ∧
    aspectPortrait { width := some 100, height := some 100 } = false ∧
    aspectLandscape { width := some 111, height := some 100 } = true ∧
    aspectSquare { width := some 111, height := some 100 } = false ∧
    aspectSquare { width := some 100, height := some 112 } = false ∧
    aspectLandscape { width := some 100, height := some 112 } = false := by
  refine ⟨?_, ?_, ?_, ?_, ?_, ?_, ?_⟩ <;>
    simp only [aspectSquare, aspectLandscape, aspectPortrait] <;> norm_num [abs_lt]

end SDSorter
namespace SDSorter

theorem rowCond_ratings_full {q : GetImagesQuery} {r : ImageRec}
    (h : q.ratings.toFinset = allRatings) :
    rowCond q r = rowCond { q with ratings := [] } r := by
  simp [rowCond, h]

theorem rowCond_ratings_partial {q : GetImagesQuery} {r : ImageRec}
    (h1 : q.ratings ≠ []) (h2 : q.ratings.toFinset ≠ allRatings) :
    rowCond q r = (rowCond { q with ratings := [] } r &&
      (r.tags.any (fun tg => tg.1 ∈ q.ratings) || r.tagged_at = none)) := by
  simp only [rowCond]
  have e1 : decide (q.ratings = []) = false := by simp [h1]
  have e2 : decide (q.ratings.toFinset = allRatings) = false := by simp [h2]
  rw [e1, e2]
  cases hX : (r.tags.any (fun tg => tg.1 ∈ q.ratings) || decide (r.tagged_at = none)) <;>
    simp [hX]

/-- Claim C4, counterexample: an image that has tag rows (so is not "wholly
untagged") but whose `tagged_at` is `NULL` is returned under a partial
rating set it does not match — the code keys "untagged" on the tagging
timestamp, not on the absence of tag rows. -/
theorem claim_C4_counterexample :
    getImages [{ path := "p".data, tagged_at := none, tags := [("tree".data, 1)] }]
        { ratings := ["general".data] } =
      [{ path := "p".data, tagged_at := none, tags := [("tree".data, 1)] }] ∧
    ({ path := "p".data, tagged_at := none,
       tags := [("tree".data, 1)] : ImageRec }).tags ≠ [] ∧
    (({ path := "p".data, tagged_at := none,
        tags := [("tree".data, 1)] : ImageRec }).tags.all
      (fun tg => tg.1 ∉ ["general".data])) = true :=
  ⟨by decide, by decide, by decide⟩

/-- Claim C4, amended: a full rating set disables the rating filter
entirely; a non-full, non-empty rating set restricts the otherwise-matching
rows to those carrying a requested rating tag OR having a `NULL` tagging
timestamp (never tagged) — not "having no tags at all". -/
theorem claim_C4_amended :
    (∀ (db : List ImageRec) (q : GetImagesQuery), q.ratings.toFinset = allRatings →
      getImages db q = getImages db { q with ratings := [] }) ∧
    (∀ (db : List ImageRec) (q : GetImagesQuery),
      q.ratings ≠ [] → q.ratings.toFinset ≠ allRatings →
      getImages db q =
        getImages (db.filter (fun r =>
            r.tags.any (fun tg => tg.1 ∈ q.ratings) || r.tagged_at = none))
          { q with ratings := [] }) := by
  constructor
  · intro db q h
    unfold getImages
    rw [List.filter_congr (fun r _ => rowCond_ratings_full h)]
  · intro db q h1 h2
    unfold getImages
    rw [List.filter_congr (fun r _ => rowCond_ratings_partial h1 h2), ← List.filter_filter]

/-- An explicit-rated, tagged image used to instantiate C4's theorem. -/
def c4img : ImageRec :=
  { path := "p".data, tags := [("explicit".data, 1)], tagged_at := some 3 }

/-- The full four-value rating set as a request argument. -/
def fullRatingsReq : List (List Char) :=
  ["general".data, "sensitive".data, "questionable".data, "explicit".data]

/-- Witness for C4's amended theorem at concrete inputs. -/
theorem claim_C4_amended_witness :
    getImages [c4img] { ratings := fullRatingsReq } =
      getImages [c4img] ({ } : GetImagesQuery) ∧
    getImages [c4img] { ratings := ["general".data] } =
      getImages ([c4img].filter (fun r =>
          r.tags.any (fun tg => tg.1 ∈ ["general".data]) || r.tagged_at = none))
        ({ } : GetImagesQuery) :=
  ⟨claim_C4_amended.1 _ _ (by decide), claim_C4_amended.2 _ _ (by decide) (by decide)⟩

end SDSorter
namespace SDSorter

theorem isEmpty_or_all (l : List α) (p : α → Bool) : (l.isEmpty || l.all p) = l.all p := by
  cases l <;> simp

/-- Claim C2: with a prompt-term filter of `"cat"`, no image whose only
extracted token is `"category"` is ever returned (exact membership, not
substring), while an image whose prompt carries the comma-delimited token
`"cat"` is returned. -/
theorem claim_C2 :
    (∀ (db : List ImageRec) (q : GetImagesQuery) (img : ImageRec),
      q.prompt_terms = ["cat".data] →
      extract_prompt_tokens (img.prompt.getD []) = {"category".data} →
      img ∉ getImages db q) ∧
    getImages [{ path := "a".data, prompt := some "cat, tree".data }]
        { prompt_terms := ["cat".data] } =
      [{ path := "a".data, prompt := some "cat, tree".data }] := by
  constructor
  · intro db q img hq htok hmem
    unfold getImages at hmem
    rw [hq] at hmem
    simp only [List.isEmpty_cons, Bool.not_false, Bool.true_or, if_pos] at hmem
    have hfil : img ∈ (db.filter (rowCond q)).filter (fun img =>
        ((["cat".data].map normalize_prompt_token).isEmpty ||
          (["cat".data].map normalize_prompt_token).all
            (fun t => t ∈ extract_prompt_tokens (img.prompt.getD []))) &&
        ((q.loras.map normalize_lora_name).isEmpty ||
          (q.loras.map normalize_lora_name).any
            (fun n => n ∈ extract_lora_names img.loras img.prompt))) := by
      split at hmem
      · exact List.drop_subset _ _ (List.take_subset _ _ hmem)
      · exact List.drop_subset _ _ hmem
    have hpred := List.of_mem_filter hfil
    rw [Bool.and_eq_true] at hpred
    have h1 := hpred.1
    have hc : normalize_prompt_token ("cat".data) = "cat".data := by decide
    simp only [List.map_cons, List.map_nil, hc, List.isEmpty_cons, List.all_cons,
      List.all_nil, Bool.false_or, Bool.and_true, decide_eq_true_eq] at h1
    rw [htok, Finset.mem_singleton] at h1
    exact absurd h1 (by decide)
  · decide

end SDSorter
namespace SDSorter

/-- Witness for C2 at a concrete store: the `"category"`-only image is not
returned by a `"cat"` prompt-term filter even though it is a coarse
(substring) match. -/
theorem claim_C2_witness :
    ({ path := "b".data, prompt := some "category, a".data } : ImageRec) ∉
      getImages [{ path := "b".data, prompt := some "category, a".data }]
        { prompt_terms := ["cat".data] } :=
  claim_C2.1 _ _ _ rfl (by decide)

/-- The five coarse candidates of C1's pagination scenario: all contain
`"cat"` as a substring (coarse match), but only the 1st, 3rd and 5th carry
the exact token `"cat"`. -/
def c1db : List ImageRec :=
  [{ path := "1".data, prompt := some "cat, a".data },
   { path := "2".data, prompt := some "category, a".data },
   { path := "3".data, prompt := some "cat, b".data },
   { path := "4".data, prompt := some "scatter, x".data },
   { path := "5".data, prompt := some "cat".data }]

/-- The C1 request: prompt term `"cat"`, `limit=2`, `offset=1`. -/
def c1q : GetImagesQuery := { prompt_terms := ["cat".data], limit := 2, offset := 1 }

/-- Claim C1: with prompt-term or LoRA criteria, `get_images` fetches all
coarse candidates (no SQL `LIMIT`/`OFFSET`), keeps exactly those whose
recomputed token set contains every requested term and (if LoRAs are
requested) at least one requested LoRA, and slices `[offset, offset+limit)`
only on the refined list; concretely, `limit=2, offset=1` over 5 coarse
candidates with 3 refined hits returns the 2nd and 3rd refined results. -/
theorem claim_C1 :
    (∀ (db : List ImageRec) (q : GetImagesQuery),
      q.prompt_terms ≠ [] ∨ q.loras ≠ [] →
      getImages db q =
        (let refined := (db.filter (rowCond q)).filter (fun img =>
          (q.prompt_terms.map normalize_prompt_token).all
            (fun t => t ∈ extract_prompt_tokens (img.prompt.getD [])) &&
          (q.loras = [] || (q.loras.map normalize_lora_name).any
            (fun n => n ∈ extract_lora_names img.loras img.prompt)))
        if q.limit ≠ 0 then (refined.drop q.offset).take q.limit
        else refined.drop q.offset)) ∧
    c1db.filter (rowCond c1q) = c1db ∧
    (c1db.filter (rowCond c1q)).filter (fun img =>
        (c1q.prompt_terms.map normalize_prompt_token).all
          (fun t => t ∈ extract_prompt_tokens (img.prompt.getD []))) =
      [{ path := "1".data, prompt := some "cat, a".data },
       { path := "3".data, prompt := some "cat, b".data },
       { path := "5".data, prompt := some "cat".data }] ∧
    getImages c1db c1q =
      [{ path := "3".data, prompt := some "cat, b".data },
       { path := "5".data, prompt := some "cat".data }] := by
  refine ⟨?_, by decide, by decide, by decide⟩
  intro db q h
  unfold getImages
  have hpost : (!q.prompt_terms.isEmpty || !q.loras.isEmpty) = true := by
    rcases h with h | h <;> cases hpt : q.prompt_terms <;> cases hlo : q.loras <;>
      simp_all
  rw [if_pos hpost]
  have hfil : ∀ img : ImageRec,
      (((q.prompt_terms.map normalize_prompt_token).isEmpty ||
        (q.prompt_terms.map normalize_prompt_token).all
          (fun t => t ∈ extract_prompt_tokens (img.prompt.getD []))) &&
       ((q.loras.map normalize_lora_name).isEmpty ||
        (q.loras.map normalize_lora_name).any
          (fun n => n ∈ extract_lora_names img.loras img.prompt))) =
      ((q.prompt_terms.map normalize_prompt_token).all
          (fun t => t ∈ extract_prompt_tokens (img.prompt.getD [])) &&
       (q.loras = [] || (q.loras.map normalize_lora_name).any
          (fun n => n ∈ extract_lora_names img.loras img.prompt))) := by
    intro img
    rw [isEmpty_or_all]
    cases q.loras <;> simp
  simp only [hfil]

/-- Witness for C1's general part at a concrete request. -/
theorem claim_C1_witness :
    getImages c1db c1q =
      (let refined := (c1db.filter (rowCond c1q)).filter (fun img =>
        (c1q.prompt_terms.map normalize_prompt_token).all
          (fun t => t ∈ extract_prompt_tokens (img.prompt.getD [])) &&
        (c1q.loras = [] || (c1q.loras.map normalize_lora_name).any
          (fun n => n ∈ extract_lora_names img.loras img.prompt)))
      if c1q.limit ≠ 0 then (refined.drop c1q.offset).take c1q.limit
      else refined.drop c1q.offset) :=
  claim_C1.1 c1db c1q (Or.inl (by decide))

end SDSorter
namespace SDSorter

/-! ## The rating-repair operation (`fix_rating_tags`) -/

/-- One row of the `tags` table (`id` is the primary key). -/
structure TagRow where
  id : Nat
  image_id : Nat
  tag : List Char
  confidence : ℚ
deriving DecidableEq

/-- The four reserved rating tag values. -/
def ratingTagNames : List (List Char) :=
  ["general".data, "sensitive".data, "questionable".data, "explicit".data]

/-- `SELECT ... FROM tags WHERE image_id = ? AND tag IN (four ratings)`,
in table order. -/
def ratingRowsOf (imgId : Nat) (l : List TagRow) : List TagRow :=
  l.filter (fun t => t.image_id = imgId && t.tag ∈ ratingTagNames)

/-- The row kept by `ratings[0]` after `ORDER BY confidence DESC`: the
first row of maximal confidence (any choice among exactly tied confidences
is unspecified in SQLite; the claims only rely on maximality). -/
def chooseTop (x : TagRow) (rest : List TagRow) : TagRow :=
  rest.foldl (fun best r => if best.confidence < r.confidence then r else best) x

/-- One loop iteration of the repair endpoint: if an image has more than
one rating row, keep the top-confidence one and `DELETE` the rest by id. -/
def fixOne (cur : List TagRow) (imgId : Nat) : List TagRow :=
  match ratingRowsOf imgId cur with
  | [] => cur
  | [_] => cur
  | x :: rest =>
    let keep := chooseTop x rest
    let removeIds := ((x :: rest).filter (fun t => t.id ≠ keep.id)).map (·.id)
    cur.filter (fun t => t.id ∉ removeIds)

/-- The loop over the distinct image ids that carry rating rows. -/
def fixGo : List Nat → List TagRow → List TagRow
  | [], cur => cur
  | i :: is, cur => fixGo is (fixOne cur i)

/-- `fix_rating_tags` (backend/routers/tags.py): repair every image that
carries at least one rating row. -/
def fix_rating_tags (tags : List TagRow) : List TagRow :=
  fixGo (((tags.filter (fun t => t.tag ∈ ratingTagNames)).map (·.image_id)).dedup) tags

/-- What repair leaves of an image's rating rows: none or one stay as they
are, several collapse to the top-confidence one. -/
def fixedRowsSpec : List TagRow → List TagRow
  | [] => []
  | [x] => [x]
  | x :: rest => [chooseTop x rest]

theorem chooseTop_mem (x : TagRow) (rest : List TagRow) : chooseTop x rest ∈ x :: rest := by
  induction rest generalizing x with
  | nil => simp [chooseTop]
  | cons b t ih =>
    have e : chooseTop x (b :: t) =
        chooseTop (if x.confidence < b.confidence then b else x) t := rfl
    rw [e]
    have h := ih (if x.confidence < b.confidence then b else x)
    rcases List.mem_cons.mp h with h | h
    · rw [h]
      split <;> simp
    · simp [h]

theorem chooseTop_le (x : TagRow) (rest : List TagRow) :
    ∀ r ∈ x :: rest, r.confidence ≤ (chooseTop x rest).confidence := by
  induction rest generalizing x with
  | nil =>
    intro r hr
    rw [List.mem_singleton] at hr
    rw [hr]
    exact le_refl _
  | cons b t ih =>
    intro r hr
    have e : chooseTop x (b :: t) =
        chooseTop (if x.confidence < b.confidence then b else x) t := rfl
    rw [e]
    have htop := ih (if x.confidence < b.confidence then b else x)
      (if x.confidence < b.confidence then b else x) (by simp)
    have hxb : x.confidence ≤ (if x.confidence < b.confidence then b else x).confidence ∧
        b.confidence ≤ (if x.confidence < b.confidence then b else x).confidence := by
      split
      · next hlt => exact ⟨le_of_lt hlt, le_refl _⟩
      · next hnlt => exact ⟨le_refl _, le_of_not_lt hnlt⟩
    rcases List.mem_cons.mp hr with rfl | hr
    · exact le_trans hxb.1 htop
    · rcases List.mem_cons.mp hr with rfl | hr
      · exact le_trans hxb.2 htop
      · exact ih _ r (List.mem_cons_of_mem _ hr)

theorem filter_id_eq {l : List TagRow} (h : (l.map (·.id)).Nodup) {k : TagRow} (hk : k ∈ l) :
    l.filter (fun t => t.id = k.id) = [k] := by
  induction l with
  | nil => cases hk
  | cons a t ih =>
    rw [List.map_cons, List.nodup_cons] at h
    rcases List.mem_cons.mp hk with h1 | hk'
    · rw [h1, List.filter_cons]
      have hp : (decide (a.id = a.id)) = true := by simp
      rw [hp, if_pos rfl]
      have : t.filter (fun s => s.id = a.id) = [] := by
        rw [List.filter_eq_nil_iff]
        intro s hs
        simp only [decide_eq_true_eq]
        intro he
        exact h.1 (he ▸ List.mem_map_of_mem (·.id) hs)
      rw [this]
    · have hne : (decide (a.id = k.id)) = false := by
        simp only [decide_eq_false_iff_not]
        intro he
        exact h.1 (he ▸ List.mem_map_of_mem (·.id) hk')
      rw [List.filter_cons, hne]
      simp only [Bool.false_eq_true, if_false]
      exact ih h.2 hk'

theorem ratingRowsOf_filter (imgId : Nat) (p : TagRow → Bool) (l : List TagRow) :
    ratingRowsOf imgId (l.filter p) = (ratingRowsOf imgId l).filter p := by
  unfold ratingRowsOf
  rw [List.filter_filter, List.filter_filter]
  exact List.filter_congr (fun t _ => Bool.and_comm _ _)

theorem fixOne_sublist (cur : List TagRow) (i : Nat) : (fixOne cur i).Sublist cur := by
  unfold fixOne
  split
  · exact List.Sublist.refl _
  · exact List.Sublist.refl _
  · exact List.filter_sublist _

end SDSorter
namespace SDSorter

theorem fixOne_other {cur : List TagRow} {i j : Nat}
    (hids : (cur.map (·.id)).Nodup) (hne : j ≠ i) :
    ratingRowsOf j (fixOne cur i) = ratingRowsOf j cur := by
  unfold fixOne
  split
  · rfl
  · rfl
  · rename_i hd tl hproof heq
    rw [ratingRowsOf_filter]
    apply List.filter_eq_self.mpr
    intro t ht
    rw [decide_eq_true_eq]
    intro hmem
    rw [List.mem_map] at hmem
    obtain ⟨s, hs, hid⟩ := hmem
    have hs1 : s ∈ hd :: tl := (List.filter_sublist _).subset hs
    rw [← heq] at hs1
    have hsc : s ∈ cur := (List.filter_sublist _).subset hs1
    have htc : t ∈ cur := (List.filter_sublist _).subset ht
    have hst : s = t := List.inj_on_of_nodup_map hids hsc htc hid
    have hsi : s.image_id = i := by
      have := List.of_mem_filter hs1
      rw [Bool.and_eq_true, decide_eq_true_eq] at this
      exact this.1
    have htj : t.image_id = j := by
      have := List.of_mem_filter ht
      rw [Bool.and_eq_true, decide_eq_true_eq] at this
      exact this.1
    rw [hst, htj] at hsi
    exact hne hsi

theorem fixOne_self {cur : List TagRow} {i : Nat} (hids : (cur.map (·.id)).Nodup) :
    ratingRowsOf i (fixOne cur i) = fixedRowsSpec (ratingRowsOf i cur) := by
  unfold fixOne
  split
  · rename_i heq
    rw [heq]
    rfl
  · rename_i x heq
    rw [heq]
    rfl
  · rename_i hd tl hproof heq
    rw [ratingRowsOf_filter, heq]
    have hnd : ((hd :: tl).map (·.id)).Nodup := by
      have hsub : (hd :: tl).Sublist cur := heq ▸ List.filter_sublist _
      exact hids.sublist (hsub.map _)
    have hcongr : ∀ t ∈ hd :: tl,
        (decide (t.id ∉ ((hd :: tl).filter
          (fun s => s.id ≠ (chooseTop hd tl).id)).map (·.id))) =
        (decide (t.id = (chooseTop hd tl).id)) := by
      intro t ht
      rw [decide_eq_decide]
      constructor
      · intro hnot
        by_contra hne2
        exact hnot (List.mem_map_of_mem (·.id)
          (List.mem_filter.mpr ⟨ht, by simpa using hne2⟩))
      · intro heqid hmem
        rw [List.mem_map] at hmem
        obtain ⟨s, hs, hid⟩ := hmem
        have hsne := List.of_mem_filter hs
        rw [decide_eq_true_eq] at hsne
        exact hsne (hid.trans heqid)
    rw [List.filter_congr hcongr, filter_id_eq hnd (chooseTop_mem hd tl)]
    cases tl with
    | nil => exact absurd rfl hproof
    | cons y ys => rfl

end SDSorter
namespace SDSorter

theorem fixGo_sublist (is : List Nat) (cur : List TagRow) : (fixGo is cur).Sublist cur := by
  induction is generalizing cur with
  | nil => exact List.Sublist.refl _
  | cons i is ih => exact (ih (fixOne cur i)).trans (fixOne_sublist cur i)

theorem fixGo_ids_nodup {is : List Nat} {cur : List TagRow}
    (hids : (cur.map (·.id)).Nodup) : ((fixGo is cur).map (·.id)).Nodup :=
  hids.sublist ((fixGo_sublist is cur).map _)

theorem fixGo_other {is : List Nat} {cur : List TagRow} {j : Nat}
    (hids : (cur.map (·.id)).Nodup) (hj : j ∉ is) :
    ratingRowsOf j (fixGo is cur) = ratingRowsOf j cur := by
  induction is generalizing cur with
  | nil => rfl
  | cons i is ih =>
    have hji : j ≠ i := fun h => hj (h ▸ List.mem_cons_self i is)
    have hj' : j ∉ is := fun h => hj (List.mem_cons_of_mem i h)
    calc ratingRowsOf j (fixGo is (fixOne cur i))
        = ratingRowsOf j (fixOne cur i) :=
          ih (hids.sublist ((fixOne_sublist cur i).map _)) hj'
      _ = ratingRowsOf j cur := fixOne_other hids hji

theorem fixGo_spec {is : List Nat} {cur : List TagRow} {i : Nat}
    (hids : (cur.map (·.id)).Nodup) (hmem : i ∈ is) (hnd : is.Nodup) :
    ratingRowsOf i (fixGo is cur) = fixedRowsSpec (ratingRowsOf i cur) := by
  induction is generalizing cur with
  | nil => cases hmem
  | cons a as ih =>
    rw [List.nodup_cons] at hnd
    rcases List.mem_cons.mp hmem with h1 | h2
    · subst h1
      show ratingRowsOf i (fixGo as (fixOne cur i)) = _
      rw [fixGo_other (hids.sublist ((fixOne_sublist cur i).map _)) hnd.1]
      exact fixOne_self hids
    · have hia : i ≠ a := fun h => hnd.1 (h ▸ h2)
      show ratingRowsOf i (fixGo as (fixOne cur a)) = _
      rw [ih (hids.sublist ((fixOne_sublist cur a).map _)) h2 hnd.2,
        fixOne_other hids hia]

/-- The rating rows an image retains after the repair operation: none stay
none, a single one stays, several collapse to the first top-confidence
one. -/
theorem fix_rating_tags_rows (tags : List TagRow) (hids : (tags.map (·.id)).Nodup)
    (imgId : Nat) :
    ratingRowsOf imgId (fix_rating_tags tags) = fixedRowsSpec (ratingRowsOf imgId tags) := by
  unfold fix_rating_tags
  by_cases h : imgId ∈ ((tags.filter (fun t => t.tag ∈ ratingTagNames)).map (·.image_id)).dedup
  · exact fixGo_spec hids h (List.nodup_dedup _)
  · rw [fixGo_other hids h]
    have hnone : ratingRowsOf imgId tags = [] := by
      unfold ratingRowsOf
      rw [List.filter_eq_nil_iff]
      intro t ht hb
      rw [Bool.and_eq_true, decide_eq_true_eq, decide_eq_true_eq] at hb
      apply h
      rw [List.mem_dedup]
      have h3 : t ∈ tags.filter (fun t => t.tag ∈ ratingTagNames) :=
        List.mem_filter.mpr ⟨ht, by simpa using hb.2⟩
      have h4 := List.mem_map_of_mem (·.image_id) h3
      simp only at h4
      rwa [hb.1] at h4
    rw [hnone]
    rfl
end SDSorter
namespace SDSorter

/-- Claim C9: after the rating-repair operation, every image carries at
most one rating tag; if it carried any before, one survives, it is one of
the previously carried rating rows, and its confidence is maximal among
them; concretely `{general: 0.9, explicit: 0.95}` retains only `explicit`.
(The `Nodup` hypothesis is the `tags.id` primary-key invariant.) -/
theorem claim_C9 :
    (∀ (tags : List TagRow), (tags.map (·.id)).Nodup → ∀ imgId : Nat,
      (ratingRowsOf imgId (fix_rating_tags tags)).length ≤ 1 ∧
      (ratingRowsOf imgId tags ≠ [] → ratingRowsOf imgId (fix_rating_tags tags) ≠ []) ∧
      (∀ r ∈ ratingRowsOf imgId (fix_rating_tags tags),
        r ∈ ratingRowsOf imgId tags ∧
        ∀ s ∈ ratingRowsOf imgId tags, s.confidence ≤ r.confidence)) ∧
    fix_rating_tags
      [⟨1, 7, "general".data, mkRat 9 10⟩, ⟨2, 7, "explicit".data, mkRat 19 20⟩] =
      [⟨2, 7, "explicit".data, mkRat 19 20⟩] := by
  constructor
  · intro tags hids imgId
    rw [fix_rating_tags_rows tags hids imgId]
    rcases hrr : ratingRowsOf imgId tags with _ | ⟨x, _ | ⟨y, ys⟩⟩
    · refine ⟨by simp [fixedRowsSpec], fun hne => absurd rfl hne, ?_⟩
      intro r hr
      simp [fixedRowsSpec] at hr
    · refine ⟨by simp [fixedRowsSpec], fun _ => by simp [fixedRowsSpec], ?_⟩
      intro r hr
      simp only [fixedRowsSpec, List.mem_singleton] at hr
      subst hr
      exact ⟨by simp, fun s hs => by rw [List.mem_singleton] at hs; rw [hs]⟩
    · refine ⟨by simp [fixedRowsSpec], fun _ => by simp [fixedRowsSpec], ?_⟩
      intro r hr
      simp only [fixedRowsSpec, List.mem_singleton] at hr
      subst hr
      exact ⟨chooseTop_mem x (y :: ys), fun s hs => chooseTop_le x (y :: ys) s hs⟩
  · decide

/-- Witness for C9's general part at a concrete table. -/
theorem claim_C9_witness :
    (ratingRowsOf 7 (fix_rating_tags
      [⟨1, 7, "general".data, mkRat 9 10⟩,
       ⟨2, 7, "explicit".data, mkRat 19 20⟩])).length ≤ 1 :=
  (claim_C9.1
    [⟨1, 7, "general".data, mkRat 9 10⟩, ⟨2, 7, "explicit".data, mkRat 19 20⟩]
    (by decide) 7).1

end SDSorter
namespace SDSorter

/-! ## `add_image` (INSERT OR REPLACE) -/

/-- The arguments of `add_image`, with the source's defaults. -/
structure AddImageArgs where
  path : List Char
  filename : List Char
  generator : List Char := "unknown".data
  prompt : Option (List Char) := none
  negative_prompt : Option (List Char) := none
  metadata_json : Option (List Char) := none
  width : Option Int := none
  height : Option Int := none
  file_size : Option Int := none
  checkpoint : Option (List Char) := none
  loras : Option (List (List Char)) := none
  created_at : Option Nat := none

/-- `json.dumps` on a list of plain strings (no escapes needed for the
names the program stores). -/
def jsonDumpStrList (xs : List (List Char)) : List Char :=
  '[' :: (List.intercalate (", ".data) (xs.map (fun s => '"' :: (s ++ ['"'])))) ++ [']']

/-- The row `add_image` inserts: every column from the arguments,
`indexed_at` from `CURRENT_TIMESTAMP`, a fresh `id`, and — because the
column is absent from the INSERT list — `tagged_at = NULL`.  The new row
has no tag rows (`INSERT OR REPLACE` gives it a fresh id). -/
def addedRow (a : AddImageArgs) (now newId : Nat) : ImageRec :=
  { id := newId, path := a.path, filename := a.filename, generator := a.generator,
    prompt := a.prompt, negative_prompt := a.negative_prompt,
    metadata_json := a.metadata_json, width := a.width, height := a.height,
    file_size := a.file_size, checkpoint := a.checkpoint,
    loras := (match a.loras with
      | some xs => if xs = [] then none else some (jsonDumpStrList xs)
      | none => none),
    created_at := a.created_at, indexed_at := some now, tagged_at := none, tags := [] }

/-- `add_image` (backend/database.py): `INSERT OR REPLACE` keyed on the
unique `path` — any conflicting row is deleted, the new row inserted. -/
def addImage (db : List ImageRec) (a : AddImageArgs) (now newId : Nat) : List ImageRec :=
  db.filter (fun r => r.path ≠ a.path) ++ [addedRow a now newId]

/-- Claim C10: re-adding an already-present path leaves exactly one record
for that path, all of whose columns come from the new call; in particular
`tagged_at` is NULL afterwards, so re-indexing resets tagging state. -/
theorem claim_C10 (db : List ImageRec) (a : AddImageArgs) (now newId : Nat)
    (hexists : ∃ r ∈ db, r.path = a.path) :
    (addImage db a now newId).filter (fun r => r.path = a.path) =
      [addedRow a now newId] ∧
    (addedRow a now newId).tagged_at = none := by
  constructor
  · unfold addImage
    rw [List.filter_append, List.filter_filter]
    have h1 : db.filter (fun r => decide (r.path = a.path) && decide (r.path ≠ a.path)) = [] := by
      rw [List.filter_eq_nil_iff]
      intro r _ hb
      rw [Bool.and_eq_true, decide_eq_true_eq, decide_eq_true_eq] at hb
      exact hb.2 hb.1
    rw [h1, List.nil_append, List.filter_cons, if_pos (by simp [addedRow])]
    rfl
  · rfl

/-- Witness for C10: re-adding the path of a previously tagged record
leaves one untagged record for it. -/
theorem claim_C10_witness :
    (addImage [{ path := "p.png".data, filename := "p.png".data, tagged_at := some 5 }]
        { path := "p.png".data, filename := "p.png".data } 9 2).filter
      (fun r => r.path = "p.png".data) =
      [addedRow { path := "p.png".data, filename := "p.png".data } 9 2] ∧
    (addedRow { path := "p.png".data, filename := "p.png".data } 9 2).tagged_at = none :=
  claim_C10 [{ path := "p.png".data, filename := "p.png".data, tagged_at := some 5 }]
    { path := "p.png".data, filename := "p.png".data } 9 2
    ⟨{ path := "p.png".data, filename := "p.png".data, tagged_at := some 5 },
      List.mem_singleton_self _, rfl⟩

end SDSorter
namespace SDSorter

/-! ## `_parse_webui_parameters` and `_detect_and_parse` (metadata_parser.py) -/

/-- One match of `<lora:([^:]+):[^>]+>` (case-sensitive, the WebUI-prompt
LoRA pattern) anchored at the head. -/
def matchLoraCapC (l : List Char) : Option (List Char × List Char) :=
  if ("<lora:".data).isPrefixOf l then
    let rest := l.drop 6
    let cap := rest.takeWhile (fun c => c ≠ ':')
    let r2 := rest.dropWhile (fun c => c ≠ ':')
    if cap = [] then none else
    match r2 with
    | ':' :: r3 =>
      let b := r3.takeWhile (fun c => c ≠ '>')
      let r4 := r3.dropWhile (fun c => c ≠ '>')
      if b = [] then none else
      match r4 with
      | '>' :: r5 => some (cap, r5)
      | _ => none
    | _ => none
  else none

/-- `re.search(r"Model:\s*([^,]+)", params)`: the capture of the leftmost
match (greedy `\s*` backs off one character when `[^,]+` would otherwise be
empty). -/
def searchModel : List Char → Option (List Char)
  | [] => none
  | c :: rest =>
    if ("Model:".data).isPrefixOf (c :: rest) then
      let after := (c :: rest).drop 6
      let ws := after.takeWhile pyIsWs
      let r := after.dropWhile pyIsWs
      match r with
      | d :: _ =>
        if d = ',' then
          match ws.getLast? with
          | some w => some [w]
          | none => searchModel rest
        else some (r.takeWhile (fun x => x ≠ ','))
      | [] =>
        match ws.getLast? with
        | some w => some [w]
        | none => searchModel rest
    else searchModel rest

/-- `re.match(r"^Steps:\s*\d+", line)`. -/
def stepsLineMatch (l : List Char) : Bool :=
  if ("Steps:".data).isPrefixOf l then
    match (l.drop 6).dropWhile pyIsWs with
    | c :: _ => c.isDigit
    | [] => false
  else false

/-- Python `str.replace(pat, '')`: delete every non-overlapping leftmost
occurrence. -/
def replaceAllEmpty (pat : List Char) : Nat → List Char → List Char
  | 0, l => l
  | _ + 1, [] => []
  | fuel + 1, c :: rest =>
    if pat.isPrefixOf (c :: rest) then
      replaceAllEmpty pat fuel ((c :: rest).drop pat.length)
    else c :: replaceAllEmpty pat fuel rest

/-- `"\n".join`. -/
def joinNl (ls : List (List Char)) : List Char := List.intercalate ['\n'] ls

/-- Python `-1`-style index of the first matching line. -/
def idxOr (o : Option Nat) : Int :=
  match o with
  | some n => (n : Int)
  | none => -1

/-- The result quadruple of `_parse_webui_parameters`. -/
structure WebuiParsed where
  prompt : Option (List Char)
  negative : Option (List Char)
  checkpoint : Option (List Char)
  loras : List (List Char)
deriving DecidableEq

/-- `_parse_webui_parameters` (backend/metadata_parser.py).  `loras` keeps
one copy per distinct name (the source's `list(set(...))` order is
unspecified; this model keeps last occurrences). -/
def parse_webui_parameters (params : List Char) : WebuiParsed :=
  if params = [] then ⟨none, none, none, []⟩ else
  let loras := (scanFind matchLoraCapC (params.length + 1) params).dedup
  let checkpoint := (searchModel params).map pyStrip
  let lines := pySplitChar '\n' params
  let neg_start : Int :=
    idxOr (lines.findIdx? (fun l => ("Negative prompt:".data).isPrefixOf l))
  let param_start : Int := idxOr (lines.findIdx? stepsLineMatch)
  let prompt : Option (List Char) :=
    if neg_start > 0 then some (pyStrip (joinNl (lines.take neg_start.toNat)))
    else if param_start > 0 then some (pyStrip (joinNl (lines.take param_start.toNat)))
    else some params
  let negative : Option (List Char) :=
    if neg_start ≥ 0 then
      let neg_end : Int := if param_start > neg_start then param_start else (lines.length : Int)
      match (lines.take neg_end.toNat).drop neg_start.toNat with
      | [] => none
      | first :: restL =>
        some (pyStrip (joinNl
          ((pyStrip (replaceAllEmpty ("Negative prompt:".data) (first.length + 1) first))
            :: restL)))
    else none
  ⟨prompt, negative, checkpoint, loras⟩

end SDSorter

namespace SDSorter

/-- A ComfyUI node-input value: a string, or anything else (only
`isinstance(..., str)` matters to the extractor). -/
inductive CVal where
  | vStr (s : List Char)
  | vOther
deriving DecidableEq

/-- A ComfyUI graph node, restricted to the shapes the program consumes: a
string `class_type` and a dict of inputs (a node whose `class_type` or
`inputs` is of another type raises in Python and is outside this model). -/
structure CNode where
  class_type : List Char
  inputs : List (List Char × CVal)
deriving DecidableEq

/-- A ComfyUI workflow object: node id ↦ node dict (`none` for entries
whose value is not a dict — those are skipped). -/
abbrev ComfyGraph := List (List Char × Option CNode)

/-- `inputs.get(key, "")`. -/
def lookupInput (inputs : List (List Char × CVal)) (k : List Char) : CVal :=
  match inputs.find? (fun kv => kv.1 = k) with
  | some kv => kv.2
  | none => CVal.vStr []

/-- `" ".join`. -/
def joinSp (ls : List (List Char)) : List Char := List.intercalate [' '] ls

/-- `_extract_comfyui_data` (backend/metadata_parser.py): scan the nodes in
order; the first non-empty `CLIPTextEncode` text is positive, later ones
negative; checkpoint/LoRA loaders contribute names (non-string loader names
are outside the model); explicit string `positive`/`negative` inputs are
appended unchecked. -/
def extract_comfyui_data (g : ComfyGraph) :
    Option (List Char) × Option (List Char) × Option (List Char) × List (List Char) :=
  let acc := g.foldl (fun acc entry =>
    match entry.2 with
    | none => acc
    | some node =>
      let (positive, negative, checkpoint, loras) := acc
      let (positive, negative) :=
        if containsSeg node.class_type ("CLIPTextEncode".data) then
          match lookupInput node.inputs ("text".data) with
          | CVal.vStr s =>
            if s ≠ [] then
              if positive = [] then (positive ++ [s], negative)
              else (positive, negative ++ [s])
            else (positive, negative)
          | CVal.vOther => (positive, negative)
        else (positive, negative)
      let checkpoint :=
        if containsSeg node.class_type ("CheckpointLoader".data) ∨
            node.class_type = ("CheckPointLoaderSimple".data) then
          match lookupInput node.inputs ("ckpt_name".data) with
          | CVal.vStr s => if s ≠ [] then some s else checkpoint
          | CVal.vOther => checkpoint
        else checkpoint
      let loras :=
        if containsSeg node.class_type ("LoraLoader".data) then
          match lookupInput node.inputs ("lora_name".data) with
          | CVal.vStr s => if s ≠ [] then loras ++ [s] else loras
          | CVal.vOther => loras
        else loras
      let positive :=
        match (node.inputs.find? (fun kv => kv.1 = ("positive".data))).map (·.2) with
        | some (CVal.vStr s) => positive ++ [s]
        | _ => positive
      let negative :=
        match (node.inputs.find? (fun kv => kv.1 = ("negative".data))).map (·.2) with
        | some (CVal.vStr s) => negative ++ [s]
        | _ => negative
      (positive, negative, checkpoint, loras))
    ([], [], none, [])
  let (positive, negative, checkpoint, loras) := acc
  ((if positive ≠ [] then some (joinSp positive) else none),
   (if negative ≠ [] then some (joinSp negative) else none), checkpoint, loras)

/-- The value under the `prompt` metadata key, classified by what
`isinstance`/`json.loads` see. -/
inductive PromptVal where
  | pDict (g : ComfyGraph)
  | pStrObj (g : ComfyGraph)
  | pStrBad
  | pStrNonObj
  | pOther
deriving DecidableEq

/-- The value under the `workflow` key: a string that decodes (or not), or
a non-string. -/
inductive WorkflowVal where
  | wStr (decodes : Bool)
  | wNonStr
deriving DecidableEq

/-- The value under the `Comment` key: whether it is a `str`, the
`(has "prompt", .get("prompt",""), has "uc", .get("uc",""))` view of its
JSON object when it decodes to one (`none` = decode failure), and its
`str(...)` rendering for the step-4 fallback loop. -/
structure CommentVal where
  isStr : Bool
  decoded : Option (Bool × List Char × Bool × List Char)
  raw : List Char
deriving DecidableEq

/-- The flat metadata mapping consumed by `_detect_and_parse`, keyed by the
fields the chain actually reads. -/
structure MetaMap where
  prompt : Option PromptVal := none
  workflow : Option WorkflowVal := none
  comment : Option CommentVal := none
  description : Option (List Char) := none
  parameters : Option (List Char) := none
  cParameters : Option (List Char) := none
  userComment : Option (List Char) := none
  software : Option (List Char) := none

/-- The tuple `_detect_and_parse` returns. -/
structure DetectResult where
  generator : List Char
  prompt : Option (List Char)
  negative : Option (List Char)
  checkpoint : Option (List Char)
  loras : List (List Char)
deriving DecidableEq

/-- `params.startswith("UNICODE") or params.startswith("ASCII")` handling
of the step-4 fallback loop (seven characters sliced off either way, then
`.strip("\x00 ")`). -/
def stripUc (s : List Char) : List Char :=
  if ("UNICODE".data).isPrefixOf s ∨ ("ASCII".data).isPrefixOf s then
    let t := s.drop 7
    ((t.dropWhile (fun c => c = '\x00' ∨ c = ' ')).reverse.dropWhile
      (fun c => c = '\x00' ∨ c = ' ')).reverse
  else s

/-- One candidate of the step-4 fallback loop over
`["Parameters", "Comment", "UserComment", "parameters"]`. -/
def tryA1111Key (v : Option (List Char)) : Option DetectResult :=
  match v with
  | some raw =>
    let params := stripUc raw
    if containsSeg params ("Steps:".data) ∧ containsSeg params ("Sampler:".data) then
      let w := parse_webui_parameters params
      some ⟨(if containsSeg (pyLower params) ("forge".data) then "forge".data
             else "webui".data), w.prompt, w.negative, w.checkpoint, w.loras⟩
    else none
  | none => none

/-- `_detect_and_parse` (backend/metadata_parser.py): the priority-ordered
heuristic chain, first match wins. -/
def detect_and_parse (md : MetaMap) : DetectResult :=
  -- 1. ComfyUI: a "prompt" value holding (or decoding to) an object
  let step1 : Option DetectResult :=
    match md.prompt with
    | some (PromptVal.pDict g) | some (PromptVal.pStrObj g) =>
      let r := extract_comfyui_data g
      if ((match r.1 with
           | some s => !s.isEmpty
           | none => false) || md.workflow.isSome) then
        some ⟨"comfyui".data, r.1, r.2.1, r.2.2.1, r.2.2.2⟩
      else none
    | _ => none
  match step1 with
  | some r => r
  | none =>
  -- 2. ComfyUI: a "workflow" key
  match md.workflow with
  | some wv =>
    match wv with
    | WorkflowVal.wStr false => ⟨"comfyui".data, none, none, none, []⟩
    | _ =>
      match md.prompt with
      | some (PromptVal.pDict g) | some (PromptVal.pStrObj g) =>
        let r := extract_comfyui_data g
        ⟨"comfyui".data, r.1, r.2.1, r.2.2.1, r.2.2.2⟩
      | some PromptVal.pStrBad => ⟨"comfyui".data, none, none, none, []⟩
      | some PromptVal.pStrNonObj => ⟨"comfyui".data, none, none, none, []⟩
      | some PromptVal.pOther => ⟨"comfyui".data, none, none, none, []⟩
      | none => ⟨"comfyui".data, none, none, none, []⟩
  | none =>
  -- 3. NovelAI: a "Comment" that decodes to an object with prompt/uc
  match (match md.comment with
    | some cv =>
      if cv.isStr then
        match cv.decoded with
        | some (hp, p, hu, u) =>
          if hp ∨ hu then some (⟨"nai".data, some p, some u, none, []⟩ : DetectResult)
          else none
        | none => none
      else none
    | none => none) with
  | some r => r
  | none =>
  -- 3b. NovelAI: a "Description" mentioning NovelAI
  match (match md.description with
    | some d =>
      if containsSeg d ("NovelAI".data) ∨ containsSeg (pyLower d) ("nai".data) then
        some (⟨"nai".data, some d, none, none, []⟩ : DetectResult)
      else none
    | none => none) with
  | some r => r
  | none =>
  -- 4. WebUI/Forge: a "parameters" text chunk
  match md.parameters with
  | some params =>
    let w := parse_webui_parameters params
    ⟨(if containsSeg (pyLower params) ("forge".data) ∨ containsSeg params ("Forge".data)
       then "forge".data else "webui".data), w.prompt, w.negative, w.checkpoint, w.loras⟩
  | none =>
  -- 4b. A1111 format in other fields
  match tryA1111Key md.cParameters with
  | some r => r
  | none =>
  match tryA1111Key (md.comment.map (·.raw)) with
  | some r => r
  | none =>
  match tryA1111Key md.userComment with
  | some r => r
  | none =>
  match tryA1111Key md.parameters with
  | some r => r
  | none =>
  -- 5. Software tag
  match md.software with
  | some s =>
    if containsSeg (pyLower s) ("novelai".data) then ⟨"nai".data, none, none, none, []⟩
    else if containsSeg (pyLower s) ("comfyui".data) then
      ⟨"comfyui".data, none, none, none, []⟩
    else ⟨"unknown".data, none, none, none, []⟩
  | none => ⟨"unknown".data, none, none, none, []⟩

end SDSorter
namespace SDSorter

/-- A metadata mapping whose `prompt` is a dict-shaped ComfyUI node graph
(a KSampler-only workflow: no `CLIPTextEncode` text, no string
`positive`/`negative` inputs), with no `workflow` key, next to a WebUI
`parameters` block. -/
def c6badmd : MetaMap :=
  { prompt := some (PromptVal.pDict
      [("9".data, some ⟨"KSampler".data, [("seed".data, CVal.vOther)]⟩)]),
    parameters := some ("masterpiece\nSteps: 20, Sampler: Euler".data) }

/-- Claim C6, counterexample: rule 1 does not fire on every ComfyUI-shaped
`prompt` node graph — its guard is `if pos or "workflow" in metadata`, so a
dict-shaped graph yielding no positive text, with no `workflow` key, falls
through, and the `parameters` block then classifies the mapping as webui,
not comfyui. -/
theorem claim_C6_counterexample :
    (detect_and_parse c6badmd).generator = "webui".data ∧
    (detect_and_parse c6badmd).generator ≠ "comfyui".data :=
  ⟨by decide, by decide⟩

/-- Claim C6, amended: the chain is priority-ordered with first match
winning, but rule 1 fires only under its guard — the graph yields a
non-empty positive prompt, or a `workflow` key is also present.  Under that
guard, a mapping with both a ComfyUI-shaped `prompt` node graph and a WebUI
`parameters` block with `Steps:`/`Sampler:` classifies as comfyui, rule 1
preceding rule 4. -/
theorem claim_C6_amended (md : MetaMap) (g : ComfyGraph)
    (hprompt : md.prompt = some (PromptVal.pDict g) ∨
               md.prompt = some (PromptVal.pStrObj g))
    (hguard : (∃ s, (extract_comfyui_data g).1 = some s ∧ s ≠ []) ∨ md.workflow.isSome)
    (hparams : ∃ ps, md.parameters = some ps ∧
      containsSeg ps ("Steps:".data) = true ∧ containsSeg ps ("Sampler:".data) = true) :
    (detect_and_parse md).generator = "comfyui".data := by
  rcases hguard with ⟨s, hs, hsne⟩ | hwf
  · rcases hprompt with hp | hp <;>
      simp [detect_and_parse, hp, hs, List.isEmpty_iff, hsne]
  · rcases hprompt with hp | hp <;>
      simp [detect_and_parse, hp, hwf]

/-- Witness metadata for C6: a one-node CLIPTextEncode graph under `prompt`
plus a WebUI `parameters` block. -/
def c6md : MetaMap :=
  { prompt := some (PromptVal.pDict
      [("3".data, some ⟨"CLIPTextEncode".data, [("text".data, CVal.vStr ("a cat".data))]⟩)]),
    parameters := some ("masterpiece\nSteps: 20, Sampler: Euler".data) }

/-- Witness for C6's amended theorem at the concrete metadata fixture. -/
theorem claim_C6_amended_witness : (detect_and_parse c6md).generator = "comfyui".data :=
  claim_C6_amended c6md _ (Or.inl rfl) (Or.inl ⟨"a cat".data, by decide, by decide⟩)
    ⟨"masterpiece\nSteps: 20, Sampler: Euler".data, rfl, by decide, by decide⟩

/-- Claim C7, counterexample: on
`"a\nSteps: 20\nNegative prompt: bad"` the params-start line (index 1)
precedes the negative-start line (index 2), yet the code's first branch
(`if neg_start > 0`) still wins, so the positive prompt is
`"a\nSteps: 20"` — not `"a"`, the lines before whichever marker comes
first, as the claim states. -/
theorem claim_C7_counterexample :
    (parse_webui_parameters ("a\nSteps: 20\nNegative prompt: bad".data)).prompt =
      some ("a\nSteps: 20".data) ∧
    some ("a\nSteps: 20".data) ≠ some ("a".data) :=
  ⟨by decide, by decide⟩

/-- Claim C7, amended: the `"Negative prompt:"` line takes priority — when
one exists at a positive index, the positive prompt is the joined lines
before IT, even if a `Steps:` line comes earlier; when no negative line
exists at a positive index, the lines before a positive-index `Steps:`
line are used; when neither marker sits at a positive index the whole raw
text is the prompt.  The negative prompt runs from the negative-start line
up to the params-start line when the latter comes after it, else to the
end of the text, with the `"Negative prompt:"` label stripped from its
first line.  On the claim's example the split is prompt `"a cat, forest"`,
negative `"bad"`. -/
theorem claim_C7_amended :
    (∀ (params : List Char) (n : Nat),
      (pySplitChar '\n' params).findIdx?
        (fun l => ("Negative prompt:".data).isPrefixOf l) = some n →
      0 < n →
      (parse_webui_parameters params).prompt =
        some (pyStrip (joinNl ((pySplitChar '\n' params).take n)))) ∧
    (∀ (params : List Char) (m : Nat),
      ((pySplitChar '\n' params).findIdx?
          (fun l => ("Negative prompt:".data).isPrefixOf l) = none ∨
       (pySplitChar '\n' params).findIdx?
          (fun l => ("Negative prompt:".data).isPrefixOf l) = some 0) →
      (pySplitChar '\n' params).findIdx? stepsLineMatch = some m →
      0 < m →
      (parse_webui_parameters params).prompt =
        some (pyStrip (joinNl ((pySplitChar '\n' params).take m)))) ∧
    (∀ params : List Char, params ≠ [] →
      ((pySplitChar '\n' params).findIdx?
          (fun l => ("Negative prompt:".data).isPrefixOf l) = none ∨
       (pySplitChar '\n' params).findIdx?
          (fun l => ("Negative prompt:".data).isPrefixOf l) = some 0) →
      ((pySplitChar '\n' params).findIdx? stepsLineMatch = none ∨
       (pySplitChar '\n' params).findIdx? stepsLineMatch = some 0) →
      (parse_webui_parameters params).prompt = some params) ∧
    (∀ (params : List Char) (n m : Nat),
      (pySplitChar '\n' params).findIdx?
        (fun l => ("Negative prompt:".data).isPrefixOf l) = some n →
      (pySplitChar '\n' params).findIdx? stepsLineMatch = some m →
      n < m →
      (parse_webui_parameters params).negative =
        (match (((pySplitChar '\n' params).take m).drop n) with
         | [] => none
         | first :: restL =>
           some (pyStrip (joinNl
             ((pyStrip (replaceAllEmpty ("Negative prompt:".data) (first.length + 1) first))
               :: restL))))) ∧
    (∀ (params : List Char) (n : Nat),
      (pySplitChar '\n' params).findIdx?
        (fun l => ("Negative prompt:".data).isPrefixOf l) = some n →
      ((pySplitChar '\n' params).findIdx? stepsLineMatch = none ∨
       (∃ m, (pySplitChar '\n' params).findIdx? stepsLineMatch = some m ∧ m ≤ n)) →
      (parse_webui_parameters params).negative =
        (match ((pySplitChar '\n' params).drop n) with
         | [] => none
         | first :: restL =>
           some (pyStrip (joinNl
             ((pyStrip (replaceAllEmpty ("Negative prompt:".data) (first.length + 1) first))
               :: restL))))) ∧
    parse_webui_parameters
        ("a cat, forest\nNegative prompt: bad\nSteps: 20, Sampler: Euler".data) =
      ⟨some ("a cat, forest".data), some ("bad".data), none, []⟩ := by
  have hnil : ∀ (p : List Char → Bool), p [] = false →
      (pySplitChar '\n' ([] : List Char)).findIdx? p = none := by
    intro p hp
    simp [pySplitChar, List.findIdx?, hp]
  refine ⟨?_, ?_, ?_, ?_, ?_, by decide⟩
  · intro params n h hn
    by_cases hp : params = []
    · subst hp
      rw [hnil _ (by decide)] at h
      exact Option.noConfusion h
    · unfold parse_webui_parameters
      rw [if_neg hp]
      simp only [h, idxOr]
      rw [if_pos (by exact_mod_cast hn : (0 : Int) < (n : Int))]
      simp
  · intro params m h1 hm hm0
    by_cases hp : params = []
    · subst hp
      rw [hnil _ (by decide)] at hm
      exact Option.noConfusion hm
    · rcases h1 with h1 | h1 <;>
        (unfold parse_webui_parameters
         rw [if_neg hp]
         simp only [h1, hm, idxOr]
         rw [if_neg (by omega), if_pos (by exact_mod_cast hm0 : (0 : Int) < (m : Int))]
         simp)
  · intro params hp h1 h2
    rcases h1 with h1 | h1 <;> rcases h2 with h2 | h2 <;>
      (unfold parse_webui_parameters
       rw [if_neg hp]
       simp only [h1, h2, idxOr]
       norm_num)
  · intro params n m hn hm hnm
    by_cases hp : params = []
    · subst hp
      rw [hnil _ (by decide)] at hn
      exact Option.noConfusion hn
    · unfold parse_webui_parameters
      rw [if_neg hp]
      simp only [hn, hm, idxOr]
      rw [if_pos (by exact_mod_cast Nat.zero_le n : ((n : Int) ≥ 0)),
        if_pos (by exact_mod_cast hnm : ((m : Int) > (n : Int)))]
      simp
  · intro params n hn h2
    by_cases hp : params = []
    · subst hp
      rw [hnil _ (by decide)] at hn
      exact Option.noConfusion hn
    · have hend : ∀ m : Int, ¬ (m > (n : Int)) →
          (if m > (n : Int) then m else ((pySplitChar '\n' params).length : Int)) =
            ((pySplitChar '\n' params).length : Int) := by
        intro m hm
        rw [if_neg hm]
      rcases h2 with h2 | ⟨m, h2, hmn⟩ <;>
        (unfold parse_webui_parameters
         rw [if_neg hp]
         simp only [hn, h2, idxOr]
         rw [if_pos (by exact_mod_cast Nat.zero_le n : ((n : Int) ≥ 0))]
         rw [hend _ (by omega)]
         simp [List.take_length])

/-- Witness for C7's amended theorem, exercising all five general parts at
concrete parameters texts. -/
theorem claim_C7_amended_witness :
    (parse_webui_parameters ("a\nSteps: 20\nNegative prompt: bad".data)).prompt =
      some (pyStrip (joinNl ((pySplitChar '\n'
        ("a\nSteps: 20\nNegative prompt: bad".data)).take 2))) ∧
    (parse_webui_parameters ("Negative prompt: bad\nSteps: 20, Sampler: Euler".data)).prompt =
      some (pyStrip (joinNl ((pySplitChar '\n'
        ("Negative prompt: bad\nSteps: 20, Sampler: Euler".data)).take 1))) ∧
    (parse_webui_parameters ("just a prompt".data)).prompt = some ("just a prompt".data) ∧
    (parse_webui_parameters
        ("a cat, forest\nNegative prompt: bad\nSteps: 20, Sampler: Euler".data)).negative =
      (match (((pySplitChar '\n'
          ("a cat, forest\nNegative prompt: bad\nSteps: 20, Sampler: Euler".data)).take 2).drop 1) with
       | [] => none
       | first :: restL =>
         some (pyStrip (joinNl
           ((pyStrip (replaceAllEmpty ("Negative prompt:".data) (first.length + 1) first))
             :: restL)))) ∧
    (parse_webui_parameters ("a\nSteps: 20\nNegative prompt: bad".data)).negative =
      (match ((pySplitChar '\n' ("a\nSteps: 20\nNegative prompt: bad".data)).drop 2) with
       | [] => none
       | first :: restL =>
         some (pyStrip (joinNl
           ((pyStrip (replaceAllEmpty ("Negative prompt:".data) (first.length + 1) first))
             :: restL)))) :=
  ⟨claim_C7_amended.1 _ 2 (by decide) (by decide),
   claim_C7_amended.2.1 _ 1 (Or.inr (by decide)) (by decide) (by decide),
   claim_C7_amended.2.2.1 _ (by decide) (Or.inl (by decide)) (Or.inl (by decide)),
   claim_C7_amended.2.2.2.1 _ 1 2 (by decide) (by decide) (by decide),
   claim_C7_amended.2.2.2.2.1 _ 2 (by decide) (Or.inr ⟨1, by decide, by decide⟩)⟩

end SDSorter
